import Mathlib

/-!
Verification development for the cm123go transit web app.

Each section shallowly embeds one module of the TypeScript source:
times are `Int` milliseconds (JS `Date.now()`), fallible async calls
are `Except`-valued inputs, and the per-call "current time" is passed
explicitly.  Sequential (run-to-completion) JS semantics are modelled
by making every synchronous block a pure state transformer.
-/

namespace CM123

/-! ## Circuit breaker — src/utils/circuit-breaker.ts

The registry maps endpoint keys to independent per-key states, so the
embedding works on a single key's `CircuitBreakerState`. -/

inductive CircuitState where
  | CLOSED
  | OPEN
  | HALF_OPEN
deriving DecidableEq, Repr

structure CircuitBreakerConfig where
  failureThreshold : Nat
  resetTimeout : Int
  successThreshold : Nat
deriving DecidableEq, Repr

structure CircuitBreakerState where
  state : CircuitState
  failures : Nat
  successes : Nat
  lastFailureTime : Int
  nextAttemptTime : Int
deriving DecidableEq, Repr

/-- Fresh registry entry created by `getCircuitState`. -/
def initialCircuit : CircuitBreakerState :=
  { state := .CLOSED, failures := 0, successes := 0
    lastFailureTime := 0, nextAttemptTime := 0 }

/-- `canExecute`: returns the (possibly mutated) state and whether the
request is allowed.  The OPEN→HALF_OPEN transition happens here. -/
def canExecute (c : CircuitBreakerState) (now : Int) :
    CircuitBreakerState × Bool :=
  match c.state with
  | .CLOSED => (c, true)
  | .OPEN =>
      if c.nextAttemptTime ≤ now then
        ({ c with state := .HALF_OPEN, successes := 0 }, true)
      else
        (c, false)
  | .HALF_OPEN => (c, true)

/-- `recordSuccess`. -/
def recordSuccess (c : CircuitBreakerState) (cfg : CircuitBreakerConfig) :
    CircuitBreakerState :=
  if c.state = .HALF_OPEN then
    let c' := { c with successes := c.successes + 1 }
    if cfg.successThreshold ≤ c'.successes then
      { c' with state := .CLOSED, failures := 0, successes := 0 }
    else
      c'
  else if c.state = .CLOSED then
    { c with failures := 0 }
  else
    c

/-- `recordFailure`. -/
def recordFailure (c : CircuitBreakerState) (cfg : CircuitBreakerConfig)
    (now : Int) : CircuitBreakerState :=
  let c' := { c with failures := c.failures + 1, lastFailureTime := now }
  if c'.state = .HALF_OPEN then
    { c' with state := .OPEN, nextAttemptTime := now + cfg.resetTimeout }
  else if cfg.failureThreshold ≤ c'.failures then
    { c' with state := .OPEN, nextAttemptTime := now + cfg.resetTimeout }
  else
    c'

/-- Result observed by a `withCircuitBreaker` caller. -/
inductive CBOutcome (ε α : Type) where
  | ok (v : α)
  | circuitOpen (key : String) (retryAfter : Int)
  | fnError (e : ε)
deriving DecidableEq

/-- Output of one `withCircuitBreaker` call: the updated circuit state,
the caller-visible result, and whether the underlying `fn` was invoked. -/
structure WCBOut (ε α : Type) where
  circuit : CircuitBreakerState
  result : CBOutcome ε α
  invoked : Bool
deriving DecidableEq

/-- `withCircuitBreaker`: the underlying async `fn` is modelled by the
outcome it would produce if invoked. -/
def withCircuitBreaker (key : String) (c : CircuitBreakerState)
    (cfg : CircuitBreakerConfig) (now : Int) (outcome : Except ε α) :
    WCBOut ε α :=
  let ce := canExecute c now
  if ce.2 then
    match outcome with
    | .ok v => ⟨recordSuccess ce.1 cfg, .ok v, true⟩
    | .error e => ⟨recordFailure ce.1 cfg now, .fnError e, true⟩
  else
    ⟨ce.1, .circuitOpen key (c.nextAttemptTime - now), false⟩

/-- Fold a sequence of timestamped failures into the circuit. -/
def failMany (cfg : CircuitBreakerConfig) (c : CircuitBreakerState) :
    List Int → CircuitBreakerState
  | [] => c
  | t :: ts => failMany cfg (recordFailure c cfg t) ts

/-- Fold a sequence of timestamped calls (each with the underlying
outcome) through `withCircuitBreaker`, keeping the circuit state. -/
def wcbRun (key : String) (cfg : CircuitBreakerConfig)
    (c : CircuitBreakerState) : List (Int × Except ε α) → CircuitBreakerState
  | [] => c
  | (t, o) :: rest => wcbRun key cfg (withCircuitBreaker key c cfg t o).circuit rest

/-! ## Retry with exponential backoff — src/utils/helpers.ts

`fn` is modelled by the outcome of each invocation, indexed by the
attempt number (starting at 1, as in the `for` loop).  The second
component of the result counts how many times `fn` was invoked.  The
error type is `Option ε` because the final `throw lastError` after the
loop can rethrow an undefined `lastError` when `maxAttempts = 0`;
`.error (some e)` is a rethrown underlying error `e`. -/

def retryLoop {ε α : Type} (f : Nat → Except ε α) (maxAttempts attempt : Nat)
    (lastErr : Option ε) : Except (Option ε) α × Nat :=
  if _h1 : maxAttempts < attempt then
    (.error lastErr, 0)
  else
    match f attempt with
    | .ok v => (.ok v, 1)
    | .error e =>
        if h2 : attempt = maxAttempts then
          (.error (some e), 1)
        else
          let r := retryLoop f maxAttempts (attempt + 1) (some e)
          (r.1, r.2 + 1)
termination_by maxAttempts + 1 - attempt
decreasing_by omega

/-- `retryWithBackoff(fn, maxAttempts, initialDelay)`: the backoff delays
only pause execution, so they are not part of the value-level model. -/
def retryWithBackoff {ε α : Type} (f : Nat → Except ε α) (maxAttempts : Nat) :
    Except (Option ε) α × Nat :=
  retryLoop f maxAttempts 1 none

/-! ## Request throttle — src/utils/request-throttle.ts

Promises handed to callers are identified by `Nat` ids; two callers
holding the same promise id necessarily observe the same settlement.
JS run-to-completion makes each synchronous block atomic: the
synchronous part of `throttledRequest`, the entry of `executeRequest`
(counter increment plus invocation of `fn`), and `executeRequest`'s
`finally` block after the promise settles are each one state
transformer.  The `inFlight` map is an association list observed only
through lookup, so insertion order is irrelevant. -/

structure ThrottleConfig where
  maxConcurrent : Nat
  enableDeduplication : Bool
deriving DecidableEq, Repr

structure QueuedRequest where
  key : String
  pid : Nat
deriving DecidableEq, Repr

def lookupKey (k : String) : List (String × Nat) → Option Nat
  | [] => none
  | (k', v) :: rest => if k' = k then some v else lookupKey k rest

/-- `Map.delete`. -/
def removeKey (k : String) (m : List (String × Nat)) : List (String × Nat) :=
  m.filter (fun p => p.1 ≠ k)

/-- `Map.set`. -/
def setKey (k : String) (v : Nat) (m : List (String × Nat)) : List (String × Nat) :=
  removeKey k m ++ [(k, v)]

structure ThrottleState where
  activeCount : Nat
  queue : List QueuedRequest
  inFlight : List (String × Nat)
  /-- Promise ids of requests whose underlying `fn` has been invoked, in
  invocation order (observation of "the underlying function was called"). -/
  invoked : List Nat
deriving DecidableEq, Repr

/-- Synchronous entry of `executeRequest`: increment the active counter
and invoke `request.fn()`. -/
def executeStart (st : ThrottleState) (r : QueuedRequest) : ThrottleState :=
  { st with activeCount := st.activeCount + 1, invoked := st.invoked ++ [r.pid] }

/-- `processQueue`. -/
def processQueue (cfg : ThrottleConfig) (st : ThrottleState) : ThrottleState :=
  if cfg.maxConcurrent ≤ st.activeCount then st
  else
    match st.queue with
    | [] => st
    | r :: rest => executeStart { st with queue := rest } r

/-- Finally-block of `executeRequest`, run atomically when the request's
underlying promise settles (after `resolve`/`reject` has been recorded
on the caller-visible promise, before any caller continuation runs). -/
def settleRequest (cfg : ThrottleConfig) (st : ThrottleState)
    (r : QueuedRequest) : ThrottleState :=
  let st1 := { st with activeCount := st.activeCount - 1 }
  let st2 :=
    if cfg.enableDeduplication then
      { st1 with inFlight := removeKey r.key st1.inFlight }
    else st1
  processQueue cfg st2

/-- Non-deduplicated tail of `throttledRequest`: build the request around
a fresh promise `newPid`, start or queue it, and register it in-flight. -/
def throttledRequestNew (cfg : ThrottleConfig) (st : ThrottleState)
    (key : String) (newPid : Nat) : ThrottleState × Nat :=
  let r : QueuedRequest := ⟨key, newPid⟩
  let st1 :=
    if st.activeCount < cfg.maxConcurrent then executeStart st r
    else { st with queue := st.queue ++ [r] }
  let st2 :=
    if cfg.enableDeduplication then
      { st1 with inFlight := setKey key newPid st1.inFlight }
    else st1
  (st2, newPid)

/-- `throttledRequest`: returns the updated state and the promise id the
caller receives. -/
def throttledRequest (cfg : ThrottleConfig) (st : ThrottleState)
    (key : String) (newPid : Nat) : ThrottleState × Nat :=
  if cfg.enableDeduplication then
    match lookupKey key st.inFlight with
    | some p => (st, p)
    | none => throttledRequestNew cfg st key newPid
  else throttledRequestNew cfg st key newPid

/-- Default throttle configuration (`DEFAULT_THROTTLE_CONFIG`). -/
def cfg₀ : ThrottleConfig := ⟨3, true⟩

/-- Idle throttle state (the initial `throttleState`). -/
def st₀ : ThrottleState := ⟨0, [], [], []⟩

/-- Throttle state with one active in-flight request for key "stops". -/
def st₁ : ThrottleState := ⟨1, [], [("stops", 1)], [1]⟩

/-! ## Bus stop service — src/core/bus-stops/service.ts

Geometry is abstracted: `GeolocationService.calculateDistance(location,
stop.coordinates)` becomes an oracle `distOf : BusStop → Int` for the
fixed query location.  JS `Array.prototype.sort` with the comparator
`(a, b) => a.distanceMeters - b.distanceMeters` produces a stable
non-decreasing reordering, embedded as Mathlib's stable
`List.insertionSort`. -/

inductive BusStopErrorCode where
  | NO_STOPS_FOUND
  | DEPARTURES_UNAVAILABLE
  | RATE_LIMITED
  | API_KEY_MISSING
deriving DecidableEq, Repr

structure BusStopError where
  message : String
  code : BusStopErrorCode
deriving DecidableEq, Repr

structure Departure where
  line : String
  destination : String
  expectedDeparture : String
  minutesUntil : Int
  status : String
  operatorName : Option String
  isRealTime : Bool
deriving DecidableEq, Repr

structure BusStop where
  atcoCode : String
  commonName : String
  bearing : Option String
deriving DecidableEq, Repr

structure NearbyBusStop extends BusStop where
  distanceMeters : Int
deriving DecidableEq, Repr

structure DepartureBoard where
  stop : NearbyBusStop
  departures : List Departure
  lastUpdated : Int
  isStale : Bool
deriving DecidableEq, Repr

structure StopFetchError where
  stop : NearbyBusStop
  error : String
deriving DecidableEq, Repr

/-- Success payload of `BothDirectionsResult`; an absent
`partialFailures` field (`undefined`) is rendered as `[]`. -/
structure BothDirectionsOk where
  boards : List DepartureBoard
  partialFailures : List StopFetchError
deriving DecidableEq, Repr

/-- Comparator `(a, b) => a.distanceMeters - b.distanceMeters`. -/
def byDistance (a b : NearbyBusStop) : Prop :=
  a.distanceMeters ≤ b.distanceMeters

instance : DecidableRel byDistance :=
  fun a b => inferInstanceAs (Decidable (a.distanceMeters ≤ b.distanceMeters))

instance : IsTotal NearbyBusStop byDistance :=
  ⟨fun a b => Int.le_total a.distanceMeters b.distanceMeters⟩

instance : IsTrans NearbyBusStop byDistance :=
  ⟨fun _ _ _ h1 h2 => le_trans h1 h2⟩

/-- The mapped-and-filtered stage of `findNearest`: annotate each stop
with its distance and keep those within the radius. -/
def withinRadius (stops : List BusStop) (distOf : BusStop → Int)
    (maxRadius : Int) : List NearbyBusStop :=
  (stops.map (fun s => ({ toBusStop := s, distanceMeters := distOf s } : NearbyBusStop))).filter
    (fun s => decide (s.distanceMeters ≤ maxRadius))

/-- `findNearest(location, maxResults)`. -/
def findNearest (stops : List BusStop) (distOf : BusStop → Int)
    (maxRadius : Int) (maxResults : Nat) :
    Except BusStopError (List NearbyBusStop) :=
  if stops.isEmpty then
    .error ⟨"No bus stops available - try refreshing", .NO_STOPS_FOUND⟩
  else
    let nearby :=
      (List.insertionSort byDistance (withinRadius stops distOf maxRadius)).take maxResults
    if nearby.isEmpty then
      .error ⟨s!"No bus stops within {maxRadius}m - try a different location",
              .NO_STOPS_FOUND⟩
    else
      .ok nearby

/-- JS truthiness of an optional string (`undefined` and `""` are falsy). -/
def jsTruthy : Option String → Bool
  | none => false
  | some s => decide (s ≠ "")

/-- `toUpperCase`, over the character list (ASCII case mapping; bearings
and line refs in this code base are ASCII).  Implemented on `String.data`
so that it evaluates definitionally. -/
def jsToUpper (s : String) : String := ⟨s.data.map Char.toUpper⟩

/-- `getOppositeBearing`. -/
def getOppositeBearing (bearing : Option String) : Option String :=
  if jsTruthy bearing = false then none
  else
    match jsToUpper (bearing.getD "") with
    | "N" => some "S"
    | "S" => some "N"
    | "E" => some "W"
    | "W" => some "E"
    | "NE" => some "SW"
    | "SW" => some "NE"
    | "NW" => some "SE"
    | "SE" => some "NW"
    | _ => none

/-- Modelled from the spec: `BusStopCache` (src/core/bus-stops/cache.ts is
re-exported but absent from the source tree).  Per the spec, a departures
read returns the cached list or `null` on miss/expiry, and a missing or
unavailable store degrades to a cache miss rather than throwing; writes
are likewise total.  The cache is therefore passed as a read oracle
`cache : String → Option (List Departure)` keyed by atco code. -/
def cacheGetDepartures (cache : String → Option (List Departure))
    (atco : String) : Option (List Departure) :=
  cache atco

/-- `getDeparturesForStop(stop)`: cache-first, then a fresh fetch whose
failure yields a board with an empty departures list.  `fetchOf` models
`fetchDeparturesForStop(stop, 3)` by its outcome. -/
def getDeparturesForStop (stop : NearbyBusStop)
    (cache : String → Option (List Departure))
    (fetchOf : String → Except String (List Departure)) (now : Int) :
    DepartureBoard :=
  let fresh : DepartureBoard :=
    match fetchOf stop.atcoCode with
    | .ok departures => ⟨stop, departures, now, false⟩
    | .error _ => ⟨stop, [], now, false⟩
  match cacheGetDepartures cache stop.atcoCode with
  | some cached => if 0 < cached.length then ⟨stop, cached, now, true⟩ else fresh
  | none => fresh

/-- Direction-paired stop selection inside `getBothDirections`: up to two
stops sharing the nearest stop's bearing, then up to two in the opposite
direction. -/
def stopsToShowFrom : List NearbyBusStop → List NearbyBusStop
  | [] => []
  | nearest :: rest =>
      let nearbyStops := nearest :: rest
      let primaryBearing := nearest.bearing.map jsToUpper
      let oppositeBearing := getOppositeBearing nearest.bearing
      let primaryStops :=
        nearbyStops.filter (fun s => s.bearing.map jsToUpper == primaryBearing)
      let oppositeStops :=
        match oppositeBearing with
        | some ob =>
            nearbyStops.filter (fun (s : NearbyBusStop) =>
              s.bearing.map jsToUpper == some ob)
        | none =>
            nearbyStops.filter (fun (s : NearbyBusStop) =>
              jsTruthy s.bearing && !(s.bearing.map jsToUpper == primaryBearing))
      primaryStops.take 2 ++ oppositeStops.take 2

/-- The `Promise.allSettled` aggregation loop of `getBothDirections`:
fulfilled results become boards, rejections become partial failures. -/
def settleResults :
    List (NearbyBusStop × Except String DepartureBoard) →
      List DepartureBoard × List StopFetchError
  | [] => ([], [])
  | (stop, r) :: rest =>
      let acc := settleResults rest
      match r with
      | .ok b => (b :: acc.1, acc.2)
      | .error msg => (acc.1, ⟨stop, msg⟩ :: acc.2)

/-- `getBothDirections(location)`.  Each selected stop's result goes
through `Promise.allSettled`; since `getDeparturesForStop` is total, every
result is fulfilled, which the embedding writes as `Except.ok`. -/
def getBothDirections (stops : List BusStop) (distOf : BusStop → Int)
    (maxRadius : Int) (cache : String → Option (List Departure))
    (fetchOf : String → Except String (List Departure)) (now : Int) :
    Except BusStopError BothDirectionsOk :=
  match findNearest stops distOf maxRadius 50 with
  | .error e => .error e
  | .ok nearbyStops =>
      if nearbyStops.isEmpty then
        .error ⟨"No bus stops found nearby", .NO_STOPS_FOUND⟩
      else
        let stopsToShow := stopsToShowFrom nearbyStops
        let results := stopsToShow.map (fun s =>
          (s, (Except.ok (getDeparturesForStop s cache fetchOf now) :
                Except String DepartureBoard)))
        let settled := settleResults results
        if 0 < settled.1.length then
          .ok ⟨settled.1, settled.2⟩
        else
          .error ⟨"Failed to fetch departures for all stops", .DEPARTURES_UNAVAILABLE⟩

/-- Fulfilment test for a modelled promise outcome. -/
def exceptIsOk {ε α : Type} : Except ε α → Bool
  | .ok _ => true
  | .error _ => false

/-- Concrete stop dataset for the C5 scenario: two northbound and two
southbound stops within radius. -/
def cexStops : List BusStop :=
  [⟨"a1", "A", some "N"⟩, ⟨"a2", "B", some "N"⟩,
   ⟨"a3", "C", some "S"⟩, ⟨"a4", "D", some "S"⟩]

/-- Distances for `cexStops` from the query location. -/
def cexDist : BusStop → Int := fun s =>
  if s.atcoCode = "a1" then 10
  else if s.atcoCode = "a2" then 20
  else if s.atcoCode = "a3" then 30
  else 40

/-- Fetch outcomes for `cexStops`: only stop "a1" succeeds, the other
three fail. -/
def cexFetch : String → Except String (List Departure) := fun a =>
  if a = "a1" then .ok [⟨"42", "City", "12:00", 5, "on-time", none, true⟩]
  else .error "HTTP 500"

/-- `findNearest`'s output on `cexStops`. -/
def cexNearby : List NearbyBusStop :=
  [⟨⟨"a1", "A", some "N"⟩, 10⟩, ⟨⟨"a2", "B", some "N"⟩, 20⟩,
   ⟨⟨"a3", "C", some "S"⟩, 30⟩, ⟨⟨"a4", "D", some "S"⟩, 40⟩]

/-! ## ETA calculator — src/core/bus-stops/eta-calculator.ts

`Date` values are `Int` milliseconds.  `Date.now()` is called several
times inside one computation; run-to-completion makes them one `now`.
`calculateDistance` (haversine over the vehicle's position and the
stop's coordinates) is an oracle `dist latitude longitude`.  `new
Date().setHours(h, m, s, 0)` (today at the given time of day) is an
oracle `todayMs` over the `HH:MM:SS` string, and `formatTimeHHMM` an
oracle `fmt`.  `setDate(getDate() + 1)` is one day (86400000 ms; DST
shifts do not affect any property below).  The `matchedSchedules` set is
written but never read, so it has no observable effect and is omitted. -/

structure VehicleActivity where
  vehicleRef : String
  lineRef : String
  latitude : Int
  longitude : Int
  destinationName : Option String
deriving DecidableEq, Repr

structure ScheduledDeparture where
  tripId : String
  departureTime : String
  line : String
  destination : String
  operatorName : Option String
  stopSequence : Nat
  serviceId : String
deriving DecidableEq, Repr

/-- `String.prototype.split(":")` over the character list (the String
library version does not evaluate definitionally). -/
def splitOnColon : List Char → List (List Char)
  | [] => [[]]
  | x :: xs =>
      let r := splitOnColon xs
      if x = ':' then [] :: r
      else
        match r with
        | [] => [[x]]
        | y :: ys => (x :: y) :: ys

/-- `String.prototype.trim` (ASCII whitespace). -/
def trimChars (l : List Char) : List Char :=
  ((l.dropWhile Char.isWhitespace).reverse.dropWhile Char.isWhitespace).reverse

/-- `normalizeLineRef`: last `:`-separated component, trimmed,
upper-cased. -/
def normalizeLineRef (lineRef : String) : String :=
  ⟨(trimChars ((splitOnColon lineRef.data).getLastD [])).map Char.toUpper⟩

/-- `Math.round(deltaMs / 60000)` (`Math.round x = ⌊x + 1/2⌋`). -/
def jsRoundMinutes (deltaMs : Int) : Int :=
  Int.fdiv (deltaMs + 30000) 60000

/-- `findMatchingVehicle`: first vehicle on the same normalized line
within 3 km. -/
def findMatchingVehicle (line : String) (dist : Int → Int → Int) :
    List VehicleActivity → Option VehicleActivity
  | [] => none
  | v :: rest =>
      if normalizeLineRef v.lineRef = normalizeLineRef line ∧
          dist v.latitude v.longitude < 3000 then
        some v
      else
        findMatchingVehicle line dist rest

/-- `calculateETAFromVehicle`: `now + (distance / 8 m/s) * 1000` ms,
i.e. `now + distance * 125`. -/
def calculateETAFromVehicle (dist : Int → Int → Int) (now : Int)
    (v : VehicleActivity) : Int :=
  now + dist v.latitude v.longitude * 125

/-- `parseTimeToDate`: today's instant for the `HH:MM:SS` string,
pushed to tomorrow when it is already in the past. -/
def parseTimeToDate (todayMs : String → Int) (now : Int) (timeStr : String) : Int :=
  let d := todayMs timeStr
  if d < now then d + 86400000 else d

/-- `vehicle.destinationName || "Unknown"` (empty string is falsy). -/
def jsDestination : Option String → String
  | none => "Unknown"
  | some s => if s = "" then "Unknown" else s

/-- Comparator `(a, b) => a.minutesUntil - b.minutesUntil`. -/
def byMinutes (a b : Departure) : Prop :=
  a.minutesUntil ≤ b.minutesUntil

instance : DecidableRel byMinutes :=
  fun a b => inferInstanceAs (Decidable (a.minutesUntil ≤ b.minutesUntil))

instance : IsTotal Departure byMinutes :=
  ⟨fun a b => Int.le_total a.minutesUntil b.minutesUntil⟩

instance : IsTrans Departure byMinutes :=
  ⟨fun _ _ _ h1 h2 => le_trans h1 h2⟩

def lookupVeh (k : String) : List (String × VehicleActivity) → Option VehicleActivity
  | [] => none
  | (k', v) :: rest => if k' = k then some v else lookupVeh k rest

def replaceVeh (k : String) (v : VehicleActivity)
    (m : List (String × VehicleActivity)) : List (String × VehicleActivity) :=
  m.map (fun p => if p.1 = k then (k, v) else p)

/-- `getRealTimeOnlyDepartures`: group vehicles by normalized line
keeping the closest per line, derive a departure for each, sort by
minutes, take `limit`.  A failed vehicle fetch is caught and yields
`[]`. -/
def getRealTimeOnlyDepartures (fmt : Int → String) (dist : Int → Int → Int)
    (now : Int) (vehiclesResult : Except String (List VehicleActivity))
    (limit : Nat) : List Departure :=
  match vehiclesResult with
  | .error _ => []
  | .ok vehicles =>
      let vehiclesByLine := vehicles.foldl (fun m v =>
        let line := normalizeLineRef v.lineRef
        match lookupVeh line m with
        | none => m ++ [(line, v)]
        | some existing =>
            if dist v.latitude v.longitude
                < dist existing.latitude existing.longitude then
              replaceVeh line v m
            else m) []
      let departures := vehiclesByLine.map (fun p =>
        let eta := calculateETAFromVehicle dist now p.2
        let minutesUntil := jsRoundMinutes (eta - now)
        (⟨p.1, jsDestination p.2.destinationName, fmt eta,
          max 0 minutesUntil, "on-time", none, true⟩ : Departure))
      (List.insertionSort byMinutes departures).take limit

/-- The `for (const scheduled of scheduledDepartures)` loop of
`calculateDepartures`, with its early `break` once `limit` departures
are accumulated and its `continue` for rows departed more than 2
minutes ago. -/
def matchLoop (fmt : Int → String) (todayMs : String → Int)
    (dist : Int → Int → Int) (now : Int) (limit : Nat)
    (vehicles : List VehicleActivity) :
    List ScheduledDeparture → List Departure → List Departure
  | [], acc => acc
  | s :: rest, acc =>
      match findMatchingVehicle s.line dist vehicles with
      | some v =>
          let eta := calculateETAFromVehicle dist now v
          let dep : Departure :=
            ⟨s.line, s.destination, fmt eta, jsRoundMinutes (eta - now),
             "on-time", s.operatorName, true⟩
          let acc' := acc ++ [dep]
          if limit ≤ acc'.length then acc'
          else matchLoop fmt todayMs dist now limit vehicles rest acc'
      | none =>
          let scheduledTime := parseTimeToDate todayMs now s.departureTime
          let minutesUntil := jsRoundMinutes (scheduledTime - now)
          if minutesUntil < -2 then
            matchLoop fmt todayMs dist now limit vehicles rest acc
          else
            let dep : Departure :=
              ⟨s.line, s.destination, fmt scheduledTime, max 0 minutesUntil,
               "scheduled", s.operatorName, false⟩
            let acc' := acc ++ [dep]
            if limit ≤ acc'.length then acc'
            else matchLoop fmt todayMs dist now limit vehicles rest acc'

/-- `calculateDepartures(stop, limit)`.  `gtfsAvailable` is the result
of `isGTFSDataAvailable()`, `scheduledRows` the result of
`getScheduledDepartures(stop.atcoCode, limit * 2)`, and
`vehiclesResult` the outcome of `fetchVehiclesNear(stopCoords)` (whose
failure in the combined path is caught, falling back to timetable
only). -/
def calculateDepartures (fmt : Int → String) (todayMs : String → Int)
    (dist : Int → Int → Int) (now : Int) (gtfsAvailable : Bool)
    (scheduledRows : List ScheduledDeparture)
    (vehiclesResult : Except String (List VehicleActivity)) (limit : Nat) :
    List Departure :=
  let scheduledDepartures := if gtfsAvailable then scheduledRows else []
  if scheduledDepartures.isEmpty then
    getRealTimeOnlyDepartures fmt dist now vehiclesResult limit
  else
    let vehicles := match vehiclesResult with
      | .ok vs => vs
      | .error _ => []
    let departures := matchLoop fmt todayMs dist now limit vehicles
      scheduledDepartures []
    (List.insertionSort byMinutes departures).take limit

/-- Scheduled timetable row departing at 11:55:00, used for the C9
failing input. -/
def lateRow : ScheduledDeparture := ⟨"trip1", "11:55:00", "42", "City", none, 1, "svc"⟩

/-- Clock oracle placing today's 11:55:00 at 42900000 ms; the current
time in the C9 scenario is 43200000 ms (12:00:00), so the row departed
5 minutes ago — beyond the 2-minute grace window. -/
def todayOracle : String → Int := fun _ => 42900000

/-! ## Theorems -/

theorem failMany_closed (cfg : CircuitBreakerConfig) (ts : List Int) :
    ∀ c : CircuitBreakerState, c.state = .CLOSED →
      c.failures + ts.length < cfg.failureThreshold →
      (failMany cfg c ts).state = .CLOSED ∧
      (failMany cfg c ts).failures = c.failures + ts.length := by
  induction ts with
  | nil => intro c hc _; simpa [failMany] using hc
  | cons t ts ih =>
      intro c hc hlt
      have hstep : (recordFailure c cfg t).state = .CLOSED ∧
          (recordFailure c cfg t).failures = c.failures + 1 := by
        have hnot : ¬ cfg.failureThreshold ≤ c.failures + 1 := by
          simp only [List.length_cons] at hlt
          omega
        simp [recordFailure, hc, hnot]
      have hlt' : (recordFailure c cfg t).failures + ts.length
          < cfg.failureThreshold := by
        rw [hstep.2]; simp only [List.length_cons] at hlt; omega
      have := ih (recordFailure c cfg t) hstep.1 hlt'
      simp only [failMany]
      exact ⟨this.1, by rw [this.2, hstep.2]; simp only [List.length_cons]; omega⟩

theorem failMany_append (cfg : CircuitBreakerConfig)
    (c : CircuitBreakerState) (ts us : List Int) :
    failMany cfg c (ts ++ us) = failMany cfg (failMany cfg c ts) us := by
  induction ts generalizing c with
  | nil => simp [failMany]
  | cons t ts ih => simp [failMany, ih]

/-- C1: after `failureThreshold` consecutive recorded failures on a fresh
circuit (the last failure at time `t`), the circuit is OPEN with cooldown
deadline `t + resetTimeout`; a `withCircuitBreaker` call made at any time
before that deadline is rejected with a `CircuitOpenError` carrying a
positive retry-after value, and the underlying function is not invoked. -/
theorem circuit_opens_and_rejects_before_deadline
    {ε α : Type} (cfg : CircuitBreakerConfig) (ts : List Int) (t : Int)
    (hlen : ts.length + 1 = cfg.failureThreshold)
    (key : String) (now : Int) (hnow : now < t + cfg.resetTimeout)
    (outcome : Except ε α) :
    (failMany cfg initialCircuit (ts ++ [t])).state = .OPEN ∧
    (failMany cfg initialCircuit (ts ++ [t])).nextAttemptTime
      = t + cfg.resetTimeout ∧
    (withCircuitBreaker key (failMany cfg initialCircuit (ts ++ [t]))
        cfg now outcome).invoked = false ∧
    (withCircuitBreaker key (failMany cfg initialCircuit (ts ++ [t]))
        cfg now outcome).result
      = .circuitOpen key (t + cfg.resetTimeout - now) ∧
    0 < t + cfg.resetTimeout - now := by
  have h0f : initialCircuit.failures = 0 := rfl
  have hmid := failMany_closed cfg ts initialCircuit rfl (by omega)
  have hsplit : failMany cfg initialCircuit (ts ++ [t])
      = recordFailure (failMany cfg initialCircuit ts) cfg t := by
    rw [failMany_append]; rfl
  have hthr : cfg.failureThreshold ≤ (failMany cfg initialCircuit ts).failures + 1 := by
    rw [hmid.2]; omega
  have hopen : (failMany cfg initialCircuit (ts ++ [t])).state = .OPEN ∧
      (failMany cfg initialCircuit (ts ++ [t])).nextAttemptTime
        = t + cfg.resetTimeout := by
    rw [hsplit]
    simp [recordFailure, hmid.1, hthr]
  refine ⟨hopen.1, hopen.2, ?_, ?_, by omega⟩ <;>
  · have hlt : ¬ (t + cfg.resetTimeout ≤ now) := by omega
    simp [withCircuitBreaker, canExecute, hopen.1, hopen.2, hlt]

/-- Concrete instantiation of the C1 theorem: threshold 3, three failures
at time 0, a call at time 100 during the 30000 ms cooldown. -/
theorem circuit_opens_and_rejects_before_deadline_witness :
    (([0, 0] : List Int).length + 1
        = (CircuitBreakerConfig.mk 3 30000 1).failureThreshold) ∧
    ((100 : Int) < 0 + (CircuitBreakerConfig.mk 3 30000 1).resetTimeout) ∧
    ((failMany (.mk 3 30000 1) initialCircuit ([0, 0] ++ [0])).state = .OPEN ∧
     (failMany (.mk 3 30000 1) initialCircuit ([0, 0] ++ [0])).nextAttemptTime
       = 0 + (CircuitBreakerConfig.mk 3 30000 1).resetTimeout ∧
     (withCircuitBreaker "bods" (failMany (.mk 3 30000 1) initialCircuit ([0, 0] ++ [0]))
         (.mk 3 30000 1) 100 (Except.ok (5 : Nat) : Except Unit Nat)).invoked = false ∧
     (withCircuitBreaker "bods" (failMany (.mk 3 30000 1) initialCircuit ([0, 0] ++ [0]))
         (.mk 3 30000 1) 100 (Except.ok (5 : Nat) : Except Unit Nat)).result
       = .circuitOpen "bods" (0 + (CircuitBreakerConfig.mk 3 30000 1).resetTimeout - 100) ∧
     (0 : Int) < 0 + (CircuitBreakerConfig.mk 3 30000 1).resetTimeout - 100) :=
  ⟨by decide, by decide,
    circuit_opens_and_rejects_before_deadline (.mk 3 30000 1) [0, 0] 0 (by decide)
      "bods" 100 (by decide) (Except.ok 5)⟩

theorem wcbRun_halfopen_success {ε α : Type} (key : String)
    (cfg : CircuitBreakerConfig) (calls : List (Int × Except ε α)) :
    ∀ h : CircuitBreakerState, h.state = .HALF_OPEN →
      (∀ p ∈ calls, ∃ v, p.2 = Except.ok v) →
      h.successes + calls.length = cfg.successThreshold →
      1 ≤ calls.length →
      (wcbRun key cfg h calls).state = .CLOSED ∧
      (wcbRun key cfg h calls).failures = 0 := by
  induction calls with
  | nil => intro h _ _ _ hlen; simp at hlen
  | cons p rest ih =>
      intro h hh hok hsum _
      obtain ⟨t, o⟩ := p
      obtain ⟨v, hv⟩ := hok (t, o) (List.mem_cons_self _ _)
      simp only at hv
      have hstep : wcbRun key cfg h ((t, o) :: rest)
          = wcbRun key cfg (recordSuccess h cfg) rest := by
        simp [wcbRun, withCircuitBreaker, canExecute, hh, hv]
      rcases rest with _ | ⟨q, qs⟩
      · have hone : cfg.successThreshold ≤ h.successes + 1 := by
          simp only [List.length_cons, List.length_nil] at hsum; omega
        rw [hstep]
        simp [wcbRun, recordSuccess, hh, hone]
      · have hlt : ¬ cfg.successThreshold ≤ h.successes + 1 := by
          simp only [List.length_cons] at hsum; omega
        have hrec : recordSuccess h cfg = { h with successes := h.successes + 1 } := by
          simp [recordSuccess, hh, hlt]
        rw [hstep, hrec]
        refine ih _ (by simp [hh]) (fun p hp => hok p (List.mem_cons_of_mem _ hp)) ?_ (by simp)
        simp only [List.length_cons] at hsum ⊢
        simp only [hsum.symm]
        omega

/-- C2: from an OPEN circuit whose cooldown has elapsed, `canExecute`
moves the circuit to HALF_OPEN (successes reset to 0) and lets exactly the
current call through (it is invoked); a run of `successThreshold`
successful calls from there leaves the circuit CLOSED with failures 0,
while a single failing call returns it to OPEN with a fresh cooldown
`nextAttemptTime = now + resetTimeout`. -/
theorem half_open_probe_decides
    {ε α : Type} (cfg : CircuitBreakerConfig) (c : CircuitBreakerState)
    (hc : c.state = .OPEN) (now : Int) (hnow : c.nextAttemptTime ≤ now)
    (key : String) (e : ε) (v₁ : α) (rest : List (Int × Except ε α))
    (hlen : rest.length + 1 = cfg.successThreshold)
    (hok : ∀ p ∈ rest, ∃ v, p.2 = Except.ok v) :
    canExecute c now = ({ c with state := .HALF_OPEN, successes := 0 }, true) ∧
    (∀ o : Except ε α, (withCircuitBreaker key c cfg now o).invoked = true) ∧
    ((wcbRun key cfg c ((now, Except.ok v₁) :: rest)).state = .CLOSED ∧
     (wcbRun key cfg c ((now, Except.ok v₁) :: rest)).failures = 0) ∧
    ((withCircuitBreaker key c cfg now
        (Except.error e : Except ε α)).circuit.state = .OPEN ∧
     (withCircuitBreaker key c cfg now
        (Except.error e : Except ε α)).circuit.nextAttemptTime
       = now + cfg.resetTimeout) := by
  have hce : canExecute c now = ({ c with state := .HALF_OPEN, successes := 0 }, true) := by
    simp [canExecute, hc, hnow]
  refine ⟨hce, ?_, ?_, ?_⟩
  · intro o
    rcases o with e' | v' <;> simp [withCircuitBreaker, hce]
  · have hstep : wcbRun key cfg c ((now, Except.ok v₁) :: rest)
        = wcbRun key cfg { c with state := .HALF_OPEN, successes := 0 }
            ((now, Except.ok v₁) :: rest) := by
      conv_lhs => rw [wcbRun]
      conv_rhs => rw [wcbRun]
      simp [withCircuitBreaker, canExecute, hc, hnow]
    rw [hstep]
    exact wcbRun_halfopen_success key cfg _ _ rfl
      (by
        intro p hp
        rcases List.mem_cons.mp hp with h | h
        · exact ⟨v₁, by rw [h]⟩
        · exact hok p h)
      (by simpa using hlen) (by simp)
  · simp [withCircuitBreaker, hce, recordFailure]

/-- Concrete instantiation of the C2 theorem: successThreshold 2, circuit
OPEN with deadline 35, probe at time 35 then a second success at 36. -/
theorem half_open_probe_decides_witness :
    ((CircuitBreakerState.mk .OPEN 3 0 5 35).state = .OPEN) ∧
    ((CircuitBreakerState.mk .OPEN 3 0 5 35).nextAttemptTime ≤ (35 : Int)) ∧
    ([((36 : Int), (Except.ok 2 : Except Unit Nat))].length + 1
      = (CircuitBreakerConfig.mk 3 30000 2).successThreshold) ∧
    (canExecute (CircuitBreakerState.mk .OPEN 3 0 5 35) 35
      = ({ CircuitBreakerState.mk .OPEN 3 0 5 35 with
            state := .HALF_OPEN, successes := 0 }, true) ∧
    (∀ o : Except Unit Nat,
      (withCircuitBreaker "k" (CircuitBreakerState.mk .OPEN 3 0 5 35)
        (.mk 3 30000 2) 35 o).invoked = true) ∧
    ((wcbRun "k" (.mk 3 30000 2) (CircuitBreakerState.mk .OPEN 3 0 5 35)
        ((35, Except.ok 1) :: [((36 : Int), (Except.ok 2 : Except Unit Nat))])).state
          = .CLOSED ∧
     (wcbRun "k" (.mk 3 30000 2) (CircuitBreakerState.mk .OPEN 3 0 5 35)
        ((35, Except.ok 1) :: [((36 : Int), (Except.ok 2 : Except Unit Nat))])).failures
          = 0) ∧
    ((withCircuitBreaker "k" (CircuitBreakerState.mk .OPEN 3 0 5 35)
        (.mk 3 30000 2) 35 (Except.error () : Except Unit Nat)).circuit.state = .OPEN ∧
     (withCircuitBreaker "k" (CircuitBreakerState.mk .OPEN 3 0 5 35)
        (.mk 3 30000 2) 35
          (Except.error () : Except Unit Nat)).circuit.nextAttemptTime
       = 35 + (CircuitBreakerConfig.mk 3 30000 2).resetTimeout)) :=
  ⟨by decide, by decide, by decide,
    half_open_probe_decides (.mk 3 30000 2) (.mk .OPEN 3 0 5 35) (by decide)
      35 (by decide) "k" () 1 [(36, Except.ok 2)] (by decide)
      (by intro p hp; rw [List.mem_singleton] at hp; subst hp; exact ⟨2, rfl⟩)⟩

theorem retryLoop_success {ε α : Type} (f : Nat → Except ε α)
    (maxAttempts j : Nat) (v : α) (hj : j ≤ maxAttempts)
    (hfj : f j = Except.ok v) :
    ∀ (n attempt : Nat) (lastErr : Option ε), j - attempt = n → attempt ≤ j →
      (∀ i, attempt ≤ i → i < j → ∃ e, f i = Except.error e) →
      retryLoop f maxAttempts attempt lastErr = (Except.ok v, j + 1 - attempt) := by
  intro n
  induction n with
  | zero =>
      intro attempt lastErr hn hle _hfail
      have heq : j = attempt := by omega
      subst heq
      have h1 : ¬ maxAttempts < j := by omega
      have hone : j + 1 - j = 1 := by omega
      rw [retryLoop]
      simp [h1, hfj, hone]
  | succ n ih =>
      intro attempt lastErr hn hle hfail
      obtain ⟨e, he⟩ := hfail attempt le_rfl (by omega)
      have h1 : ¬ maxAttempts < attempt := by omega
      have h2 : attempt ≠ maxAttempts := by omega
      have hc : j + 1 - (attempt + 1) + 1 = j + 1 - attempt := by omega
      rw [retryLoop]
      simp only [h1, dite_false, he, h2, dite_true]
      rw [ih (attempt + 1) (some e) (by omega) (by omega)
        (fun i hi hij => hfail i (by omega) hij), hc]

theorem retryLoop_allfail {ε α : Type} (f : Nat → Except ε α) (maxAttempts : Nat) :
    ∀ (n attempt : Nat) (lastErr : Option ε), maxAttempts - attempt = n →
      attempt ≤ maxAttempts →
      (∀ i, attempt ≤ i → i ≤ maxAttempts → ∃ e, f i = Except.error e) →
      ∃ e, f maxAttempts = Except.error e ∧
        retryLoop f maxAttempts attempt lastErr
          = (Except.error (some e), maxAttempts + 1 - attempt) := by
  intro n
  induction n with
  | zero =>
      intro attempt lastErr hn hle hfail
      have heq : maxAttempts = attempt := by omega
      subst heq
      obtain ⟨e, he⟩ := hfail maxAttempts le_rfl le_rfl
      refine ⟨e, he, ?_⟩
      have h1 : ¬ maxAttempts < maxAttempts := by omega
      have hone : maxAttempts + 1 - maxAttempts = 1 := by omega
      rw [retryLoop]
      simp [h1, he, hone]
  | succ n ih =>
      intro attempt lastErr hn hle hfail
      obtain ⟨e, he⟩ := hfail attempt le_rfl (by omega)
      have h1 : ¬ maxAttempts < attempt := by omega
      have h2 : attempt ≠ maxAttempts := by omega
      obtain ⟨e', he', hr⟩ := ih (attempt + 1) (some e) (by omega) (by omega)
        (fun i hi hij => hfail i (by omega) hij)
      refine ⟨e', he', ?_⟩
      have hc : maxAttempts + 1 - (attempt + 1) + 1 = maxAttempts + 1 - attempt := by
        omega
      rw [retryLoop]
      simp only [h1, dite_false, he, h2, dite_true]
      rw [hr, hc]

/-- C3: for `maxAttempts ≥ 1`, an operation failing on its first `k`
invocations (`k + 1 ≤ maxAttempts`) and succeeding on attempt `k + 1`
makes `retryWithBackoff` return that success after exactly `k + 1`
invocations, and an operation failing on every invocation is invoked
exactly `maxAttempts` times, the rejection being the error of the last
invocation. -/
theorem retryWithBackoff_spec {ε α : Type} (f : Nat → Except ε α)
    (maxAttempts : Nat) (hmax : 1 ≤ maxAttempts) :
    (∀ (k : Nat) (v : α), k + 1 ≤ maxAttempts →
      (∀ i, 1 ≤ i → i ≤ k → ∃ e, f i = Except.error e) →
      f (k + 1) = Except.ok v →
      retryWithBackoff f maxAttempts = (Except.ok v, k + 1)) ∧
    ((∀ i, 1 ≤ i → i ≤ maxAttempts → ∃ e, f i = Except.error e) →
      ∃ e, f maxAttempts = Except.error e ∧
        retryWithBackoff f maxAttempts = (Except.error (some e), maxAttempts)) := by
  constructor
  · intro k v hk hfail hok
    have hs := retryLoop_success f maxAttempts (k + 1) v hk hok (k + 1 - 1) 1 none
      (by omega) (by omega) (fun i h1 h2 => hfail i h1 (by omega))
    have hc : k + 1 + 1 - 1 = k + 1 := by omega
    rw [retryWithBackoff, hs, hc]
  · intro hfail
    obtain ⟨e, he, hr⟩ := retryLoop_allfail f maxAttempts (maxAttempts - 1) 1 none
      (by omega) hmax hfail
    refine ⟨e, he, ?_⟩
    have hc : maxAttempts + 1 - 1 = maxAttempts := by omega
    rw [retryWithBackoff, hr, hc]

/-- Concrete instantiation of the C3 theorem: a function that fails on
attempts 1–2 and succeeds on attempt 3 under `maxAttempts = 5`, and a
function that always fails under `maxAttempts = 3`. -/
theorem retryWithBackoff_spec_witness :
    retryWithBackoff
        (fun i => if i ≤ 2 then Except.error i else Except.ok (10 * i)) 5
      = (Except.ok (30 : Nat), 3) ∧
    retryWithBackoff (fun i => (Except.error i : Except Nat Nat)) 3
      = (Except.error (some 3), 3) := by
  constructor
  · exact (retryWithBackoff_spec
        (fun i => if i ≤ 2 then Except.error i else Except.ok (10 * i)) 5
        (by decide)).1 2 30 (by decide)
      (fun i _ h2 => ⟨i, by simp [h2]⟩) rfl
  · obtain ⟨e, he, hr⟩ := (retryWithBackoff_spec
        (fun i => (Except.error i : Except Nat Nat)) 3 (by decide)).2
      (fun i _ _ => ⟨i, rfl⟩)
    have h3 : (3 : Nat) = e := by injection he
    rw [← h3] at hr
    exact hr

theorem lookupKey_removeKey_self (k : String) (m : List (String × Nat)) :
    lookupKey k (removeKey k m) = none := by
  induction m with
  | nil => rfl
  | cons p rest ih =>
      by_cases h : p.1 = k
      · simpa [removeKey, h] using ih
      · obtain ⟨k', v⟩ := p
        simp only at h
        simp [removeKey, lookupKey, h, List.filter] at ih ⊢
        simpa [removeKey] using ih

theorem lookupKey_append_last (k : String) (v : Nat) (m : List (String × Nat))
    (h : ∀ p ∈ m, p.1 ≠ k) : lookupKey k (m ++ [(k, v)]) = some v := by
  induction m with
  | nil => simp [lookupKey]
  | cons p rest ih =>
      obtain ⟨k', v'⟩ := p
      have hk : k' ≠ k := h (k', v') (List.mem_cons_self _ _)
      simp only [List.cons_append, lookupKey, hk, if_neg]
      exact ih (fun q hq => h q (List.mem_cons_of_mem _ hq))

theorem lookupKey_setKey_self (k : String) (v : Nat) (m : List (String × Nat)) :
    lookupKey k (setKey k v m) = some v := by
  refine lookupKey_append_last k v (removeKey k m) ?_
  intro p hp
  have := List.of_mem_filter hp
  simpa using this

theorem processQueue_inFlight (cfg : ThrottleConfig) (st : ThrottleState) :
    (processQueue cfg st).inFlight = st.inFlight := by
  unfold processQueue
  split
  · rfl
  · split <;> simp [executeStart]

/-- C4: with deduplication enabled, a second `throttledRequest` for the
same key issued while the first is still in flight receives the very
promise created by the first call and changes nothing in the throttle
state — in particular the underlying operation is invoked exactly once
(at the first call when capacity allows, else once dequeued), and both
callers, holding one promise, observe the identical settlement. -/
theorem dedup_joins_single_invocation
    (cfg : ThrottleConfig) (hd : cfg.enableDeduplication = true)
    (st : ThrottleState) (key : String)
    (hkey : lookupKey key st.inFlight = none) (pid1 pid2 : Nat) :
    (throttledRequest cfg st key pid1).2 = pid1 ∧
    throttledRequest cfg (throttledRequest cfg st key pid1).1 key pid2
      = ((throttledRequest cfg st key pid1).1, pid1) ∧
    (st.activeCount < cfg.maxConcurrent →
      (throttledRequest cfg st key pid1).1.invoked = st.invoked ++ [pid1] ∧
      (throttledRequest cfg st key pid1).1.queue = st.queue) ∧
    (¬ st.activeCount < cfg.maxConcurrent →
      (throttledRequest cfg st key pid1).1.invoked = st.invoked ∧
      (throttledRequest cfg st key pid1).1.queue = st.queue ++ [⟨key, pid1⟩]) := by
  have h1 : throttledRequest cfg st key pid1 = throttledRequestNew cfg st key pid1 := by
    simp [throttledRequest, hd, hkey]
  have hfl : (throttledRequestNew cfg st key pid1).1.inFlight
      = setKey key pid1 st.inFlight := by
    unfold throttledRequestNew
    simp only [hd, if_true]
    split <;> simp [executeStart]
  refine ⟨?_, ?_, ?_, ?_⟩
  · rw [h1]; unfold throttledRequestNew; simp
  · rw [h1]
    have hlook : lookupKey key (throttledRequestNew cfg st key pid1).1.inFlight
        = some pid1 := by rw [hfl]; exact lookupKey_setKey_self key pid1 st.inFlight
    simp [throttledRequest, hd, hlook]
  · intro hcap
    rw [h1]
    unfold throttledRequestNew
    simp only [hcap, if_true, hd]
    simp [executeStart]
  · intro hcap
    rw [h1]
    unfold throttledRequestNew
    simp only [hcap, if_false, hd]
    simp

/-- Concrete instantiation of the C4 theorem: an idle throttle
(capacity 3), two calls for key "stops" with fresh promises 1 and 2. -/
theorem dedup_joins_single_invocation_witness :
    (cfg₀.enableDeduplication = true) ∧
    (lookupKey "stops" st₀.inFlight = none) ∧
    ((throttledRequest cfg₀ st₀ "stops" 1).2 = 1 ∧
     throttledRequest cfg₀ (throttledRequest cfg₀ st₀ "stops" 1).1 "stops" 2
       = ((throttledRequest cfg₀ st₀ "stops" 1).1, 1) ∧
     (st₀.activeCount < cfg₀.maxConcurrent →
       (throttledRequest cfg₀ st₀ "stops" 1).1.invoked = st₀.invoked ++ [1] ∧
       (throttledRequest cfg₀ st₀ "stops" 1).1.queue = st₀.queue) ∧
     (¬ st₀.activeCount < cfg₀.maxConcurrent →
       (throttledRequest cfg₀ st₀ "stops" 1).1.invoked = st₀.invoked ∧
       (throttledRequest cfg₀ st₀ "stops" 1).1.queue = st₀.queue ++ [⟨"stops", 1⟩])) :=
  ⟨rfl, rfl, dedup_joins_single_invocation cfg₀ rfl st₀ "stops" rfl 1 2⟩

/-- C10: when a deduplicated request settles, its `finally` block removes
the in-flight entry for its key before any caller continuation can run,
so a later `throttledRequest` with that key never receives the settled
promise: it gets its fresh promise and either invokes the underlying
operation immediately (capacity available) or queues a new request. -/
theorem settle_clears_inflight_and_reinvokes
    (cfg : ThrottleConfig) (hd : cfg.enableDeduplication = true)
    (st : ThrottleState) (r : QueuedRequest) (pidNew : Nat) :
    lookupKey r.key (settleRequest cfg st r).inFlight = none ∧
    (throttledRequest cfg (settleRequest cfg st r) r.key pidNew).2 = pidNew ∧
    ((settleRequest cfg st r).activeCount < cfg.maxConcurrent →
      (throttledRequest cfg (settleRequest cfg st r) r.key pidNew).1.invoked
        = (settleRequest cfg st r).invoked ++ [pidNew]) ∧
    (¬ (settleRequest cfg st r).activeCount < cfg.maxConcurrent →
      (throttledRequest cfg (settleRequest cfg st r) r.key pidNew).1.invoked
        = (settleRequest cfg st r).invoked ∧
      (throttledRequest cfg (settleRequest cfg st r) r.key pidNew).1.queue
        = (settleRequest cfg st r).queue ++ [⟨r.key, pidNew⟩]) := by
  have hnone : lookupKey r.key (settleRequest cfg st r).inFlight = none := by
    unfold settleRequest
    rw [processQueue_inFlight]
    simp only [hd, if_true]
    exact lookupKey_removeKey_self r.key _
  have h1 : throttledRequest cfg (settleRequest cfg st r) r.key pidNew
      = throttledRequestNew cfg (settleRequest cfg st r) r.key pidNew := by
    simp [throttledRequest, hd, hnone]
  refine ⟨hnone, ?_, ?_, ?_⟩
  · rw [h1]; unfold throttledRequestNew; simp
  · intro hcap
    rw [h1]
    unfold throttledRequestNew
    simp only [hcap, if_true, hd]
    simp [executeStart]
  · intro hcap
    rw [h1]
    unfold throttledRequestNew
    simp only [hcap, if_false, hd]
    simp

/-- Concrete instantiation of the C10 theorem: one request for key
"stops" (promise 1) is active and in flight; it settles and a new call
for the same key arrives with fresh promise 2. -/
theorem settle_clears_inflight_and_reinvokes_witness :
    (cfg₀.enableDeduplication = true) ∧
    (lookupKey "stops" (settleRequest cfg₀ st₁ ⟨"stops", 1⟩).inFlight = none ∧
     (throttledRequest cfg₀ (settleRequest cfg₀ st₁ ⟨"stops", 1⟩) "stops" 2).2 = 2 ∧
     ((settleRequest cfg₀ st₁ ⟨"stops", 1⟩).activeCount < cfg₀.maxConcurrent →
       (throttledRequest cfg₀ (settleRequest cfg₀ st₁ ⟨"stops", 1⟩) "stops" 2).1.invoked
         = (settleRequest cfg₀ st₁ ⟨"stops", 1⟩).invoked ++ [2]) ∧
     (¬ (settleRequest cfg₀ st₁ ⟨"stops", 1⟩).activeCount < cfg₀.maxConcurrent →
       (throttledRequest cfg₀ (settleRequest cfg₀ st₁ ⟨"stops", 1⟩) "stops" 2).1.invoked
         = (settleRequest cfg₀ st₁ ⟨"stops", 1⟩).invoked ∧
       (throttledRequest cfg₀ (settleRequest cfg₀ st₁ ⟨"stops", 1⟩) "stops" 2).1.queue
         = (settleRequest cfg₀ st₁ ⟨"stops", 1⟩).queue ++ [⟨"stops", 2⟩])) :=
  ⟨rfl, settle_clears_inflight_and_reinvokes cfg₀ rfl st₁ ⟨"stops", 1⟩ 2⟩

/-- C6: `getDeparturesForStop` is total — the caller always receives a
`DepartureBoard` for the requested stop: on a cache miss a failed fresh
fetch yields the stop's board with an empty departures list (the failure
is not propagated), and a successful fetch yields the fetched
departures. -/
theorem getDeparturesForStop_never_throws
    (stop : NearbyBusStop) (cache : String → Option (List Departure))
    (fetchOf : String → Except String (List Departure)) (now : Int)
    (hmiss : cache stop.atcoCode = none) :
    (∀ e, fetchOf stop.atcoCode = Except.error e →
      getDeparturesForStop stop cache fetchOf now = ⟨stop, [], now, false⟩) ∧
    (∀ deps, fetchOf stop.atcoCode = Except.ok deps →
      getDeparturesForStop stop cache fetchOf now = ⟨stop, deps, now, false⟩) := by
  constructor <;> intro x hx <;>
    simp [getDeparturesForStop, cacheGetDepartures, hmiss, hx]

/-- Concrete instantiation of the C6 theorem: an empty cache and a fetch
that fails with "HTTP 500". -/
theorem getDeparturesForStop_never_throws_witness :
    ((fun (_ : String) => (none : Option (List Departure))) "a1" = none) ∧
    ((∀ e, (fun (_ : String) =>
        (Except.error "HTTP 500" : Except String (List Departure))) "a1"
          = Except.error e →
      getDeparturesForStop ⟨⟨"a1", "A", none⟩, 100⟩ (fun _ => none)
          (fun _ => Except.error "HTTP 500") 7
        = ⟨⟨⟨"a1", "A", none⟩, 100⟩, [], 7, false⟩) ∧
    (∀ deps, (fun (_ : String) =>
        (Except.error "HTTP 500" : Except String (List Departure))) "a1"
          = Except.ok deps →
      getDeparturesForStop ⟨⟨"a1", "A", none⟩, 100⟩ (fun _ => none)
          (fun _ => Except.error "HTTP 500") 7
        = ⟨⟨⟨"a1", "A", none⟩, 100⟩, deps, 7, false⟩)) :=
  ⟨rfl, getDeparturesForStop_never_throws ⟨⟨"a1", "A", none⟩, 100⟩ (fun _ => none)
    (fun _ => Except.error "HTTP 500") 7 rfl⟩

/-- C7 as stated fails at `maxResults = 0`: with a single stop at
distance 0 inside radius 100, `findNearest` still reports the typed
"no stops found" error although a stop lies within the radius. -/
theorem findNearest_zero_maxResults_cex :
    (∃ e, findNearest [⟨"490001", "High Street", none⟩] (fun _ => 0) 100 0
        = Except.error e ∧ e.code = BusStopErrorCode.NO_STOPS_FOUND) ∧
    ¬ (([(⟨"490001", "High Street", none⟩ : BusStop)] = [])
        ∨ ∀ s ∈ [(⟨"490001", "High Street", none⟩ : BusStop)],
            (100 : Int) < (fun _ => (0 : Int)) s) := by
  constructor
  · exact ⟨⟨"No bus stops within 100m - try a different location",
      .NO_STOPS_FOUND⟩, rfl, rfl⟩
  · intro h
    rcases h with h | h
    · cases h
    · have := h ⟨"490001", "High Street", none⟩ (by simp)
      simp at this

/-- C7 amended (restricted to `maxResults ≥ 1`): every returned stop is
within the configured radius, the list is sorted non-decreasing in
`distanceMeters` with at most `maxResults` entries, and the typed
NO_STOPS_FOUND error occurs exactly when the dataset is empty or no stop
lies within the radius. -/
theorem findNearest_radius_sorted_bounded
    (stops : List BusStop) (distOf : BusStop → Int) (maxRadius : Int)
    (maxResults : Nat) (hmax : 1 ≤ maxResults) :
    (∀ l, findNearest stops distOf maxRadius maxResults = Except.ok l →
      (∀ s ∈ l, s.distanceMeters ≤ maxRadius) ∧
      List.Sorted byDistance l ∧ l.length ≤ maxResults) ∧
    ((∃ e, findNearest stops distOf maxRadius maxResults = Except.error e ∧
        e.code = BusStopErrorCode.NO_STOPS_FOUND) ↔
      (stops = [] ∨ ∀ s ∈ stops, maxRadius < distOf s)) := by
  rcases stops with _ | ⟨s0, srest⟩
  · constructor
    · intro l hl
      cases hl
    · constructor
      · intro _
        exact Or.inl rfl
      · intro _
        exact ⟨⟨"No bus stops available - try refreshing", .NO_STOPS_FOUND⟩, rfl, rfl⟩
  · have hfind : findNearest (s0 :: srest) distOf maxRadius maxResults
        = if ((List.insertionSort byDistance
              (withinRadius (s0 :: srest) distOf maxRadius)).take maxResults).isEmpty then
            .error ⟨s!"No bus stops within {maxRadius}m - try a different location",
                    .NO_STOPS_FOUND⟩
          else
            .ok ((List.insertionSort byDistance
              (withinRadius (s0 :: srest) distOf maxRadius)).take maxResults) := by
      simp [findNearest]
    set F := withinRadius (s0 :: srest) distOf maxRadius with hF
    set S := List.insertionSort byDistance F with hS
    set T := S.take maxResults with hT
    have hSlen : S.length = F.length := (List.perm_insertionSort byDistance F).length_eq
    have hFiff : F = [] ↔ ∀ s ∈ (s0 :: srest), maxRadius < distOf s := by
      rw [hF]
      unfold withinRadius
      rw [List.filter_eq_nil_iff]
      constructor
      · intro h s hs
        have := h _ (List.mem_map_of_mem _ hs)
        simpa using this
      · intro h x hx
        obtain ⟨s, hs, rfl⟩ := List.mem_map.mp hx
        simpa using h s hs
    have hTiff : T = [] ↔ F = [] := by
      rw [hT, List.take_eq_nil_iff]
      constructor
      · rintro (h | h)
        · omega
        · rw [← List.length_eq_zero, hSlen, List.length_eq_zero] at h
          exact h
      · intro h
        right
        rw [← List.length_eq_zero, hSlen, List.length_eq_zero]
        exact h
    constructor
    · intro l hl
      rw [hfind] at hl
      rcases hTe : T.isEmpty with _ | _
      · rw [hTe] at hl
        simp only [Bool.false_eq_true, if_false] at hl
        cases hl
        refine ⟨?_, ?_, ?_⟩
        · intro x hx
          have hxS : x ∈ S := List.mem_of_mem_take hx
          have hxF : x ∈ F := (List.mem_insertionSort byDistance).mp hxS
          have := (List.mem_filter.mp hxF).2
          simpa using this
        · exact List.Pairwise.sublist (List.take_sublist _ _)
            (List.sorted_insertionSort byDistance F)
        · rw [hT, List.length_take]
          exact min_le_left _ _
      · rw [hTe] at hl
        simp at hl
    · rw [hfind]
      by_cases hTnil : T = []
      · rw [if_pos (by rw [hTnil]; rfl)]
        constructor
        · intro _
          exact Or.inr (hFiff.mp (hTiff.mp hTnil))
        · intro _
          exact ⟨_, rfl, rfl⟩
      · rw [if_neg (by simpa [List.isEmpty_iff] using hTnil)]
        constructor
        · rintro ⟨e, he, _⟩
          cases he
        · rintro (h | h)
          · cases h
          · exact absurd (hTiff.mpr (hFiff.mpr h)) hTnil

/-- Concrete instantiation of the C7 amended theorem: two stops, radius
100, `maxResults = 1`. -/
theorem findNearest_radius_sorted_bounded_witness :
    (1 ≤ 1) ∧
    ((∀ l, findNearest [⟨"a1", "A", none⟩, ⟨"a2", "B", none⟩]
          (fun s => if s.atcoCode = "a1" then 30 else 250) 100 1 = Except.ok l →
      (∀ s ∈ l, s.distanceMeters ≤ 100) ∧
      List.Sorted byDistance l ∧ l.length ≤ 1) ∧
    ((∃ e, findNearest [⟨"a1", "A", none⟩, ⟨"a2", "B", none⟩]
          (fun s => if s.atcoCode = "a1" then 30 else 250) 100 1 = Except.error e ∧
        e.code = BusStopErrorCode.NO_STOPS_FOUND) ↔
      ([(⟨"a1", "A", none⟩ : BusStop), ⟨"a2", "B", none⟩] = [] ∨
        ∀ s ∈ [(⟨"a1", "A", none⟩ : BusStop), ⟨"a2", "B", none⟩],
          (100 : Int) < (fun (s : BusStop) =>
            if s.atcoCode = "a1" then (30 : Int) else 250) s))) :=
  ⟨le_rfl, findNearest_radius_sorted_bounded
    [⟨"a1", "A", none⟩, ⟨"a2", "B", none⟩]
    (fun s => if s.atcoCode = "a1" then 30 else 250) 100 1 le_rfl⟩

theorem settleResults_all_ok (l : List NearbyBusStop)
    (f : NearbyBusStop → DepartureBoard) :
    settleResults (l.map (fun s =>
        (s, (Except.ok (f s) : Except String DepartureBoard))))
      = (l.map f, []) := by
  induction l with
  | nil => rfl
  | cons s rest ih => simp [settleResults, ih]

/-- C5 amended: since `getDeparturesForStop` never rejects (a failed
fetch yields a board with empty departures), a run in which the fetch
fails for 3 of the 4 selected stops still settles all four promises
fulfilled — `getBothDirections` returns success with exactly 4 boards
and no `partialFailures` entries, the failed stops contributing empty
boards. -/
theorem getBothDirections_failed_fetches_give_empty_boards
    (stops : List BusStop) (distOf : BusStop → Int) (maxRadius : Int)
    (cache : String → Option (List Departure))
    (fetchOf : String → Except String (List Departure)) (now : Int)
    (ns : List NearbyBusStop)
    (hfind : findNearest stops distOf maxRadius 50 = Except.ok ns)
    (hlen4 : (stopsToShowFrom ns).length = 4)
    (hcache : ∀ s ∈ stopsToShowFrom ns, cache s.atcoCode = none)
    (hfail : ((stopsToShowFrom ns).filter
        (fun s => !exceptIsOk (fetchOf s.atcoCode))).length = 3) :
    getBothDirections stops distOf maxRadius cache fetchOf now
      = Except.ok ⟨(stopsToShowFrom ns).map
          (fun s => getDeparturesForStop s cache fetchOf now), []⟩ ∧
    ((stopsToShowFrom ns).map
        (fun s => getDeparturesForStop s cache fetchOf now)).length = 4 ∧
    (∀ s ∈ stopsToShowFrom ns, exceptIsOk (fetchOf s.atcoCode) = false →
      (getDeparturesForStop s cache fetchOf now).departures = []) := by
  have hns : ns ≠ [] := by
    intro h
    rw [h] at hlen4
    simp [stopsToShowFrom] at hlen4
  have hne : ns.isEmpty = false := by
    rcases ns with _ | ⟨n, rest⟩
    · exact absurd rfl hns
    · rfl
  have hlenmap : ((stopsToShowFrom ns).map
      (fun s => getDeparturesForStop s cache fetchOf now)).length = 4 := by
    rw [List.length_map, hlen4]
  have hmain : getBothDirections stops distOf maxRadius cache fetchOf now
      = Except.ok ⟨(stopsToShowFrom ns).map
          (fun s => getDeparturesForStop s cache fetchOf now), []⟩ := by
    simp only [getBothDirections, hfind]
    rw [if_neg (by simp [hne]), settleResults_all_ok]
    rw [if_pos (by rw [hlenmap]; omega)]
  refine ⟨hmain, hlenmap, ?_⟩
  intro s hs hferr
  rcases hf : fetchOf s.atcoCode with e | ds
  · simp [getDeparturesForStop, cacheGetDepartures, hcache s hs, hf]
  · rw [hf] at hferr
    simp [exceptIsOk] at hferr

/-- C5 as stated is false: with four selected stops whose fetches fail
for exactly 3 of the 4 (all caches empty), `getBothDirections` returns
success with 4 boards and 0 partialFailures entries, not 3 boards and 1
entry. -/
theorem getBothDirections_three_failures_cex :
    (findNearest cexStops cexDist 1000 50 = Except.ok cexNearby) ∧
    ((stopsToShowFrom cexNearby).length = 4) ∧
    (((stopsToShowFrom cexNearby).filter
        (fun s => !exceptIsOk (cexFetch s.atcoCode))).length = 3) ∧
    ((getBothDirections cexStops cexDist 1000 (fun _ => none) cexFetch 0).toOption.map
        (fun r => (r.boards.length, r.partialFailures.length)) = some (4, 0)) ∧
    ¬ ((getBothDirections cexStops cexDist 1000 (fun _ => none) cexFetch 0).toOption.map
        (fun r => (r.boards.length, r.partialFailures.length)) = some (3, 1)) :=
  ⟨rfl, rfl, rfl, rfl, by decide⟩

/-- Concrete instantiation of the C5 amended theorem on the `cexStops`
scenario. -/
theorem getBothDirections_failed_fetches_give_empty_boards_witness :
    (findNearest cexStops cexDist 1000 50 = Except.ok cexNearby) ∧
    ((stopsToShowFrom cexNearby).length = 4) ∧
    (∀ s ∈ stopsToShowFrom cexNearby,
      (fun (_ : String) => (none : Option (List Departure))) s.atcoCode = none) ∧
    (((stopsToShowFrom cexNearby).filter
        (fun s => !exceptIsOk (cexFetch s.atcoCode))).length = 3) ∧
    (getBothDirections cexStops cexDist 1000 (fun _ => none) cexFetch 0
      = Except.ok ⟨(stopsToShowFrom cexNearby).map
          (fun s => getDeparturesForStop s (fun _ => none) cexFetch 0), []⟩ ∧
     ((stopsToShowFrom cexNearby).map
        (fun s => getDeparturesForStop s (fun _ => none) cexFetch 0)).length = 4 ∧
     (∀ s ∈ stopsToShowFrom cexNearby, exceptIsOk (cexFetch s.atcoCode) = false →
       (getDeparturesForStop s (fun _ => none) cexFetch 0).departures = [])) :=
  ⟨rfl, rfl, fun _ _ => rfl, rfl,
    getBothDirections_failed_fetches_give_empty_boards cexStops cexDist 1000
      (fun _ => none) cexFetch 0 cexNearby rfl rfl (fun _ _ => rfl) rfl⟩

theorem realTimeOnly_all_realtime (fmt : Int → String) (dist : Int → Int → Int)
    (now : Int) (vehiclesResult : Except String (List VehicleActivity))
    (limit : Nat) :
    ∀ d ∈ getRealTimeOnlyDepartures fmt dist now vehiclesResult limit,
      d.isRealTime = true := by
  intro d hd
  rcases vehiclesResult with e | vehicles
  · simp [getRealTimeOnlyDepartures] at hd
  · simp only [getRealTimeOnlyDepartures] at hd
    have hd1 := List.mem_of_mem_take hd
    have hd2 := (List.mem_insertionSort byMinutes).mp hd1
    obtain ⟨p, _, rfl⟩ := List.mem_map.mp hd2
    rfl

/-- C8: when the timetable feed is unavailable or yields no scheduled
rows, `calculateDepartures` takes the real-time-only path: it never
throws (a failed vehicle fetch yields `[]`), and every departure it
returns is derived from live vehicle positions with `isRealTime =
true`. -/
theorem calculateDepartures_realtime_fallback
    (fmt : Int → String) (todayMs : String → Int) (dist : Int → Int → Int)
    (now : Int) (gtfsAvailable : Bool)
    (scheduledRows : List ScheduledDeparture)
    (vehiclesResult : Except String (List VehicleActivity)) (limit : Nat)
    (hempty : gtfsAvailable = false ∨ scheduledRows = []) :
    calculateDepartures fmt todayMs dist now gtfsAvailable scheduledRows
        vehiclesResult limit
      = getRealTimeOnlyDepartures fmt dist now vehiclesResult limit ∧
    (∀ d ∈ calculateDepartures fmt todayMs dist now gtfsAvailable
        scheduledRows vehiclesResult limit, d.isRealTime = true) ∧
    (∀ e, vehiclesResult = Except.error e →
      calculateDepartures fmt todayMs dist now gtfsAvailable scheduledRows
        vehiclesResult limit = []) := by
  have h1 : calculateDepartures fmt todayMs dist now gtfsAvailable
      scheduledRows vehiclesResult limit
        = getRealTimeOnlyDepartures fmt dist now vehiclesResult limit := by
    rcases hempty with h | h <;> simp [calculateDepartures, h]
  refine ⟨h1, ?_, ?_⟩
  · rw [h1]
    exact realTimeOnly_all_realtime fmt dist now vehiclesResult limit
  · intro e he
    rw [h1, he]
    rfl

/-- Concrete instantiation of the C8 theorem: GTFS reported unavailable,
one live vehicle 800 m away. -/
theorem calculateDepartures_realtime_fallback_witness :
    ((false = false) ∨ (([] : List ScheduledDeparture) = [])) ∧
    (calculateDepartures (fun _ => "hh:mm") (fun _ => 0) (fun _ _ => 800) 0 false []
        (Except.ok [⟨"v1", "ARBB:42", 1, 2, some "City"⟩]) 3
      = getRealTimeOnlyDepartures (fun _ => "hh:mm") (fun _ _ => 800) 0
          (Except.ok [⟨"v1", "ARBB:42", 1, 2, some "City"⟩]) 3 ∧
    (∀ d ∈ calculateDepartures (fun _ => "hh:mm") (fun _ => 0) (fun _ _ => 800) 0 false []
        (Except.ok [⟨"v1", "ARBB:42", 1, 2, some "City"⟩]) 3, d.isRealTime = true) ∧
    (∀ e, (Except.ok [⟨"v1", "ARBB:42", 1, 2, some "City"⟩] :
          Except String (List VehicleActivity)) = Except.error e →
      calculateDepartures (fun _ => "hh:mm") (fun _ => 0) (fun _ _ => 800) 0 false []
        (Except.ok [⟨"v1", "ARBB:42", 1, 2, some "City"⟩]) 3 = [])) :=
  ⟨Or.inl rfl,
    calculateDepartures_realtime_fallback (fun _ => "hh:mm") (fun _ => 0)
      (fun _ _ => 800) 0 false [] (Except.ok [⟨"v1", "ARBB:42", 1, 2, some "City"⟩]) 3
      (Or.inl rfl)⟩

/-- C9 fails on the code: a row whose scheduled time passed 5 minutes
ago (more than the 2-minute grace) is NOT skipped — `parseTimeToDate`
rolls past times to tomorrow, so `minutesUntil` is 1435 and the row is
emitted as a scheduled departure about 24 hours ahead; the
`minutesUntil < -2` skip guard is unreachable. -/
theorem departed_row_shown_tomorrow_not_skipped :
    (43200000 - todayOracle "11:55:00" = 5 * 60000) ∧
    calculateDepartures (fun _ => "11:55") todayOracle (fun _ _ => 0) 43200000
        true [lateRow] (Except.ok []) 3
      = [⟨"42", "City", "11:55", 1435, "scheduled", none, false⟩] :=
  ⟨rfl, rfl⟩

end CM123
